import Mathlib

/-!
# MiCava: bar layout and amplitude-to-geometry mapping

A shallow embedding of the `Rectangles` class of `src/main.cpp` and of the two loops of
`main` that feed audio samples to the bars.

Conventions of the embedding.

* `float` and `double` values are rationals (`ℚ`): the arithmetic is read as exact, so
  rounding, infinities and NaN are outside the model.
* `int` is `Int`; the only integer arithmetic in the modelled code is `count + 1` and the
  loop counter `i`, read without overflow.
* `std::vector` is `List`; `emplace_back` appends at the end.
* `operator[]` on a vector is a lookup that can fail (`Option`): an index outside the
  vector is undefined behaviour in the source and `none` here.
* The OpenGL handles `VAO`, `VBO` of a bar and every call into GLFW / OpenGL / ALSA are
  left out; they do not touch the fields modelled here.
-/

namespace MiCava

/-! ## `Rectangles::Rectangle` -/

/-- The data members of `Rectangles::Rectangle` (without the OpenGL handles). -/
structure Rectangle where
  width : ℚ
  height : ℚ
  diff : ℚ
  margin : ℚ
  index : Int
  vertices : List ℚ
  rectangle : List (ℚ × ℚ)
  deriving DecidableEq

namespace Rectangle

/-- The method `Rectangle::updateVertices`: regenerate the 12 floats of the quad and the bounding
box from `width`, `height`, `diff`, `margin`. -/
def updateVertices (r : Rectangle) : Rectangle :=
  let pheight : ℚ := r.height / 2
  let w : ℚ := r.width
  let d : ℚ := if r.margin ≤ 0 then r.diff else r.diff * 2
  { r with
    vertices :=
      [ -1 + d, -1 * pheight,
        -1 + d + w, -1 * pheight,
        -1 + d + w, pheight,
        -1 + d, -1 * pheight,
        -1 + d + w, pheight,
        -1 + d, pheight ]
    rectangle :=
      [ (-1 + d, -1 * pheight),
        (-1 + d + w, pheight) ] }

/-- The constructor `Rectangle(width, height, diff, margin, index)`: the member
initialisers, then `updateVertices()`. -/
def new (width height diff margin : ℚ) (index : Int) : Rectangle :=
  updateVertices
    { width := width, height := height, diff := diff, margin := margin, index := index,
      vertices := [], rectangle := [] }

/-- The method `Rectangle::changeHeight`: store the new height, then `updateVertices()`. -/
def changeHeight (r : Rectangle) (newHeight : ℚ) : Rectangle :=
  updateVertices { r with height := newHeight }

/-- The vertex buffer read the way `glVertexAttribPointer(0, 2, GL_FLOAT, ..)` reads it:
consecutive floats taken two at a time as `(x, y)`. A trailing odd float is dropped. -/
def points : List ℚ → List (ℚ × ℚ)
  | x :: y :: rest => (x, y) :: points rest
  | _ => []

/-- The horizontal span `(left, right)` of the emitted quad: the `x` coordinates of its
first two vertices. `none` when the vertex buffer does not hold exactly 12 floats. -/
def span (r : Rectangle) : Option (ℚ × ℚ) :=
  match r.vertices with
  | [x0, _, x1, _, _, _, _, _, _, _, _, _] => some (x0, x1)
  | _ => none

end Rectangle

/-! ## `Rectangles` -/

/-- The data members of `Rectangles`. -/
structure Rectangles where
  count : Int
  margin : ℚ
  height : ℚ
  width : ℚ
  rectangles : List Rectangle
  deriving DecidableEq

namespace Rectangles

/-- The loop of `Rectangles::init`. The first argument is the number of iterations still
to run (`count - i`); `i` is the loop counter and `tdiff` the running offset. Each
iteration appends `Rectangle(width, height, tdiff, margin, i)` and advances `tdiff` by
`width + margin`. -/
def initLoop (width height margin : ℚ) :
    Nat → Int → ℚ → List Rectangle → List Rectangle
  | 0, _, _, rectangles => rectangles
  | n + 1, i, tdiff, rectangles =>
      initLoop width height margin n (i + 1) (tdiff + (width + margin))
        (rectangles ++ [Rectangle.new width height tdiff margin i])

/-- The method `Rectangles::init`: `tdiff` starts at the member `margin`; the loop runs for
`i = 0, .., count - 1` (not at all when `count ≤ 0`). -/
def init (s : Rectangles) : Rectangles :=
  { s with
    rectangles := initLoop s.width s.height s.margin s.count.toNat 0 s.margin s.rectangles }

/-- The body of the constructor up to `width = width * 4`, as the pair
`(width, margin)` of the member `width` and of the constructor PARAMETER `margin` after
it. Inside the body the name `margin` is the parameter, which hides the member of the
same name: the assignment of the `else` branch changes the parameter only.
The guard is decided on the exact value of `(1 - margin*(count+1))/count`; the source
rounds the product `margin*(count+1)` to `float` before the subtraction, so for a
margin within rounding distance of `1/(count+1)` the compiled guard can take the other
branch. -/
def ctorBody (count : Int) (margin : ℚ) : ℚ × ℚ :=
  let wm : ℚ × ℚ :=
    if (1 - margin * ((count + 1 : Int) : ℚ)) / (count : ℚ) > 0 then
      ((1 - margin * ((count + 1 : Int) : ℚ)) / (count : ℚ), margin)
    else
      let width : ℚ := (8 / 10) / (count : ℚ)
      (width, -1 * ((count : ℚ) * width) / ((count + 1 : Int) : ℚ))
  (wm.1 * 4, wm.2)

/-- The constructor `Rectangles(count, margin)`. The member initialisers set the members
`count`, `margin` (to the requested margin) and `height` (to `0`); the body computes the
member `width` (`ctorBody`) and calls `init()`, which reads the MEMBER `margin`. -/
def new (count : Int) (margin : ℚ) : Rectangles :=
  init
    { count := count, margin := margin, height := 0,
      width := (ctorBody count margin).1, rectangles := [] }

/-- The accessor `Rectangles::getRectangles`. -/
def getRectangles (s : Rectangles) : List Rectangle := s.rectangles

end Rectangles

/-! ## The loops of `main` that set the heights -/

/-- The constant `step` of `main`: `2.0 / 32757`. -/
def step : ℚ := 2 / 32757

/-- The lookup `samples[index]` of `main`, with an `int` index into a vector of 16-bit
samples. `none` where the source reads outside the vector. -/
def sampleAt (samples : List Int) (index : Int) : Option Int :=
  if index < 0 then none else samples[index.toNat]?

/-- The height `main` passes to `changeHeight` for the sample `s`: `s * step`. -/
def sampleHeight (s : Int) : ℚ := (s : ℚ) * step

/-- One pass of `for (Rectangle &rectangle : ..) rectangle.changeHeight(samples[rectangle.index] * step)`
(the initial assignment and the per-frame update have this same body). The result is
`none` when some lookup falls outside `samples`. -/
def updateHeights : List Rectangle → List Int → Option (List Rectangle)
  | [], _ => some []
  | r :: rest, samples =>
      match sampleAt samples r.index with
      | none => none
      | some s =>
          match updateHeights rest samples with
          | none => none
          | some rest' => some (r.changeHeight (sampleHeight s) :: rest')

/-! ## Auxiliary lemmas -/

/-- The bar that `init` emits at position `k` when the members are `width`, `height`,
`margin`. -/
def barAt (width height margin : ℚ) (k : Nat) : Rectangle :=
  Rectangle.new width height (margin + (k : ℚ) * (width + margin)) margin (k : Int)

theorem initLoop_eq (width height margin : ℚ) (n : Nat) :
    ∀ (i : Int) (tdiff : ℚ) (rs : List Rectangle),
      Rectangles.initLoop width height margin n i tdiff rs =
        rs ++ (List.range n).map (fun (k : Nat) =>
          Rectangle.new width height (tdiff + (k : ℚ) * (width + margin)) margin
            (i + (k : Int))) := by
  induction n with
  | zero => intro i tdiff rs; simp [Rectangles.initLoop]
  | succ n ih =>
    intro i tdiff rs
    rw [Rectangles.initLoop, ih, List.range_succ_eq_map, List.map_cons, List.map_map,
      List.append_assoc]
    congr 1
    simp only [List.singleton_append, Nat.cast_zero, zero_mul, add_zero]
    congr 1
    apply List.map_congr_left
    intro k _
    simp only [Function.comp_apply, Nat.cast_succ]
    congr 1
    · ring
    · ring

theorem new_rectangles (count : Int) (margin : ℚ) :
    (Rectangles.new count margin).rectangles =
      (List.range count.toNat).map
        (barAt (Rectangles.ctorBody count margin).1 0 margin) := by
  simp only [Rectangles.new, Rectangles.init, initLoop_eq, List.nil_append]
  apply List.map_congr_left
  intro k _
  simp [barAt]

theorem new_length (count : Int) (margin : ℚ) :
    (Rectangles.new count margin).rectangles.length = count.toNat := by
  simp [new_rectangles]

theorem new_getElem? (count : Int) (margin : ℚ) (i : Nat) (hi : (i : Int) < count) :
    (Rectangles.new count margin).rectangles[i]? =
      some (barAt (Rectangles.ctorBody count margin).1 0 margin i) := by
  have h : i < count.toNat := by omega
  simp [new_rectangles, List.getElem?_map, List.getElem?_range h]

theorem new_width (count : Int) (margin : ℚ) :
    (Rectangles.new count margin).width = (Rectangles.ctorBody count margin).1 := rfl

theorem ctorBody_primary (count : Int) (margin : ℚ)
    (hp : (1 - margin * ((count + 1 : Int) : ℚ)) / (count : ℚ) > 0) :
    (Rectangles.ctorBody count margin).1 =
      4 * (1 - margin * ((count : ℚ) + 1)) / (count : ℚ) := by
  simp only [Rectangles.ctorBody, if_pos hp]
  push_cast
  ring

theorem ctorBody_fallback (count : Int) (margin : ℚ)
    (hp : ¬ (1 - margin * ((count + 1 : Int) : ℚ)) / (count : ℚ) > 0) :
    (Rectangles.ctorBody count margin).1 = 4 * ((8 / 10) / (count : ℚ)) := by
  simp only [Rectangles.ctorBody, if_neg hp]
  ring

theorem ctorBody_width_pos (count : Int) (margin : ℚ) (hc : 0 < count) :
    0 < (Rectangles.ctorBody count margin).1 := by
  have hc' : (0 : ℚ) < (count : ℚ) := by exact_mod_cast hc
  by_cases hp : (1 - margin * ((count + 1 : Int) : ℚ)) / (count : ℚ) > 0
  · simp only [Rectangles.ctorBody, if_pos hp]
    exact mul_pos hp (by norm_num)
  · rw [ctorBody_fallback count margin hp]
    positivity

theorem barAt_span (width height margin : ℚ) (k : Nat) :
    (barAt width height margin k).span =
      some (-1 + (if margin ≤ 0 then margin + (k : ℚ) * (width + margin)
                  else (margin + (k : ℚ) * (width + margin)) * 2),
            -1 + (if margin ≤ 0 then margin + (k : ℚ) * (width + margin)
                  else (margin + (k : ℚ) * (width + margin)) * 2) + width) := by
  simp [barAt, Rectangle.new, Rectangle.updateVertices, Rectangle.span]

theorem mem_new_rectangles (count : Int) (margin : ℚ) (r : Rectangle) :
    r ∈ (Rectangles.new count margin).rectangles ↔
      ∃ k : Nat, (k : Int) < count ∧
        r = barAt (Rectangles.ctorBody count margin).1 0 margin k := by
  rw [new_rectangles, List.mem_map]
  constructor
  · rintro ⟨k, hk, rfl⟩
    exact ⟨k, by have := List.mem_range.mp hk; omega, rfl⟩
  · rintro ⟨k, hk, rfl⟩
    exact ⟨k, List.mem_range.mpr (by omega), rfl⟩

theorem barAt_width (width height margin : ℚ) (k : Nat) :
    (barAt width height margin k).width = width := rfl

theorem barAt_margin (width height margin : ℚ) (k : Nat) :
    (barAt width height margin k).margin = margin := rfl

theorem barAt_index (width height margin : ℚ) (k : Nat) :
    (barAt width height margin k).index = (k : Int) := rfl

theorem barAt_diff (width height margin : ℚ) (k : Nat) :
    (barAt width height margin k).diff = margin + (k : ℚ) * (width + margin) := rfl

theorem updateHeights_of_lookups (samples : List Int) :
    ∀ rs : List Rectangle,
      (∀ r ∈ rs, ∃ s, sampleAt samples r.index = some s) →
      updateHeights rs samples =
        some (rs.map (fun r =>
          r.changeHeight (sampleHeight ((sampleAt samples r.index).getD 0)))) := by
  intro rs
  induction rs with
  | nil => intro _; rfl
  | cons r rest ih =>
    intro h
    obtain ⟨s, hs⟩ := h r (List.mem_cons_self r rest)
    have hrest := ih (fun q hq => h q (List.mem_cons_of_mem r hq))
    simp [updateHeights, hs, hrest]

theorem sampleAt_natCast (samples : List Int) (i : Nat) :
    sampleAt samples (i : Int) = samples[i]? := by
  simp [sampleAt]

theorem updateHeights_empty_frame (count : Int) (margin : ℚ) (hc : 0 < count) :
    updateHeights (Rectangles.new count margin).getRectangles [] = none := by
  obtain ⟨n, hn⟩ : ∃ n : Nat, count.toNat = n + 1 := ⟨count.toNat - 1, by omega⟩
  simp [Rectangles.getRectangles, new_rectangles, hn, List.range_succ_eq_map,
    updateHeights, sampleAt]

/-! ## The claims -/

/-- C1. For every `count > 0` and requested margin with `0 < margin < 1/count`, the bars
built by `Rectangles(count, margin)` have strictly increasing offsets and the horizontal
spans `[-1 + d, -1 + d + width]` emitted by `updateVertices` are proper intervals that do
not overlap: for bars `i < j` the right edge of bar `i` is not past the left edge of
bar `j`. -/
theorem C1_offsets_increasing_spans_disjoint (count : Int) (margin : ℚ)
    (hc : 0 < count) (hm : 0 < margin) (_hm1 : margin < 1 / (count : ℚ)) :
    ∀ i j : Nat, i < j → (j : Int) < count →
      ∃ a b : Rectangle,
        (Rectangles.new count margin).rectangles[i]? = some a ∧
        (Rectangles.new count margin).rectangles[j]? = some b ∧
        a.diff < b.diff ∧
        ∃ la ra lb rb : ℚ,
          a.span = some (la, ra) ∧ b.span = some (lb, rb) ∧
          la = -1 + (if a.margin ≤ 0 then a.diff else a.diff * 2) ∧ ra = la + a.width ∧
          lb = -1 + (if b.margin ≤ 0 then b.diff else b.diff * 2) ∧ rb = lb + b.width ∧
          la < ra ∧ lb < rb ∧ ra ≤ lb := by
  intro i j hij hj
  have hW := ctorBody_width_pos count margin hc
  have hi : (i : Int) < count := by omega
  have hnm : ¬ margin ≤ 0 := not_le.mpr hm
  have hij' : (i : ℚ) + 1 ≤ (j : ℚ) := by exact_mod_cast hij
  have hstep : 0 < (Rectangles.ctorBody count margin).1 + margin := by linarith
  have hmono : ((i : ℚ) + 1) * ((Rectangles.ctorBody count margin).1 + margin) ≤
      (j : ℚ) * ((Rectangles.ctorBody count margin).1 + margin) :=
    mul_le_mul_of_nonneg_right hij' hstep.le
  refine ⟨_, _, new_getElem? count margin i hi, new_getElem? count margin j hj, ?_,
    _, _, _, _, barAt_span _ _ _ _, barAt_span _ _ _ _, ?_, ?_, ?_, ?_, ?_, ?_, ?_⟩
  · simp only [barAt_diff]; linarith
  · simp only [barAt_margin, barAt_diff]
  · simp only [barAt_width]
  · simp only [barAt_margin, barAt_diff]
  · simp only [barAt_width]
  · linarith
  · linarith
  · simp only [if_neg hnm]; linarith

/-- Witness for C1: four bars with margin `1/20`. -/
theorem C1_offsets_increasing_spans_disjoint_witness :
    (0 : Int) < 4 ∧ (0 : ℚ) < 1 / 20 ∧ (1 / 20 : ℚ) < 1 / ((4 : Int) : ℚ) ∧
    ∀ i j : Nat, i < j → (j : Int) < 4 →
      ∃ a b : Rectangle,
        (Rectangles.new 4 (1 / 20)).rectangles[i]? = some a ∧
        (Rectangles.new 4 (1 / 20)).rectangles[j]? = some b ∧
        a.diff < b.diff ∧
        ∃ la ra lb rb : ℚ,
          a.span = some (la, ra) ∧ b.span = some (lb, rb) ∧
          la = -1 + (if a.margin ≤ 0 then a.diff else a.diff * 2) ∧ ra = la + a.width ∧
          lb = -1 + (if b.margin ≤ 0 then b.diff else b.diff * 2) ∧ rb = lb + b.width ∧
          la < ra ∧ lb < rb ∧ ra ≤ lb :=
  ⟨by decide, by norm_num, by norm_num,
    C1_offsets_increasing_spans_disjoint 4 (1 / 20) (by decide) (by norm_num) (by norm_num)⟩

/-- C3. For every `count > 0` and requested margin whose primary formula
`(1 - margin*(count+1))/count` is positive, `Rectangles(count, margin)` emits exactly
`count` bars, all of width `4*(1 - margin*(count+1))/count`, and bar `i` has index `i` and
offset `margin + i*(width + margin)`; for `count = 4`, `margin = 0.05` the width is `0.75`
and the offsets are `0.05, 0.85, 1.65, 2.45`. -/
theorem C3_primary_layout (count : Int) (margin : ℚ) (hc : 0 < count)
    (hp : (1 - margin * ((count + 1 : Int) : ℚ)) / (count : ℚ) > 0) :
    (((Rectangles.new count margin).rectangles.length : Int) = count ∧
      (∀ r ∈ (Rectangles.new count margin).rectangles,
        r.width = 4 * (1 - margin * ((count : ℚ) + 1)) / (count : ℚ)) ∧
      (∀ i : Nat, (i : Int) < count →
        ∃ r : Rectangle, (Rectangles.new count margin).rectangles[i]? = some r ∧
          r.index = (i : Int) ∧
          r.diff = margin + (i : ℚ) *
            (4 * (1 - margin * ((count : ℚ) + 1)) / (count : ℚ) + margin))) ∧
    (Rectangles.new 4 (5 / 100)).rectangles.map (fun r => (r.index, r.width, r.diff)) =
      [(0, 75 / 100, 5 / 100), (1, 75 / 100, 85 / 100),
       (2, 75 / 100, 165 / 100), (3, 75 / 100, 245 / 100)] := by
  refine ⟨⟨?_, ?_, ?_⟩, ?_⟩
  · rw [new_length]; omega
  · intro r hr
    obtain ⟨k, _, rfl⟩ := (mem_new_rectangles count margin r).mp hr
    rw [barAt_width, ctorBody_primary count margin hp]
  · intro i hi
    refine ⟨_, new_getElem? count margin i hi, barAt_index _ _ _ _, ?_⟩
    rw [barAt_diff, ctorBody_primary count margin hp]
  · simp [new_rectangles, barAt, Rectangle.new, Rectangle.updateVertices,
      Rectangles.ctorBody, List.range_succ]
    norm_num

/-- Witness for C3: `count = 4`, `margin = 0.05`. -/
theorem C3_primary_layout_witness :
    ((0 : Int) < 4 ∧ (1 - (5 / 100 : ℚ) * ((4 + 1 : Int) : ℚ)) / ((4 : Int) : ℚ) > 0) ∧
    (((Rectangles.new 4 (5 / 100)).rectangles.length : Int) = 4 ∧
      (∀ r ∈ (Rectangles.new 4 (5 / 100)).rectangles,
        r.width = 4 * (1 - (5 / 100 : ℚ) * (((4 : Int) : ℚ) + 1)) / ((4 : Int) : ℚ)) ∧
      (∀ i : Nat, (i : Int) < 4 →
        ∃ r : Rectangle, (Rectangles.new 4 (5 / 100)).rectangles[i]? = some r ∧
          r.index = (i : Int) ∧
          r.diff = (5 / 100 : ℚ) + (i : ℚ) *
            (4 * (1 - (5 / 100 : ℚ) * (((4 : Int) : ℚ) + 1)) / ((4 : Int) : ℚ) + 5 / 100))) ∧
    (Rectangles.new 4 (5 / 100)).rectangles.map (fun r => (r.index, r.width, r.diff)) =
      [(0, 75 / 100, 5 / 100), (1, 75 / 100, 85 / 100),
       (2, 75 / 100, 165 / 100), (3, 75 / 100, 245 / 100)] :=
  ⟨⟨by decide, by norm_num⟩, C3_primary_layout 4 (5 / 100) (by decide) (by norm_num)⟩

/-- C2 (as stated) fails at `count = 10`, `margin = 0.5`, where the primary formula is
not positive: the width of the bar set and of every bar is `0.32`, not `0.08`, and every
bar carries the margin `0.5`. -/
theorem C2_counterexample :
    ¬ (1 - (1 / 2 : ℚ) * ((10 + 1 : Int) : ℚ)) / ((10 : Int) : ℚ) > 0 ∧
    (Rectangles.new 10 (1 / 2)).width = 32 / 100 ∧
    (Rectangles.new 10 (1 / 2)).width ≠ (8 / 10) / ((10 : Int) : ℚ) ∧
    (Rectangles.new 10 (1 / 2)).rectangles.length = 10 ∧
    ∀ r ∈ (Rectangles.new 10 (1 / 2)).rectangles,
      r.width = 32 / 100 ∧ r.width ≠ (8 / 10) / ((10 : Int) : ℚ) ∧
      r.margin = 1 / 2 ∧ ¬ r.margin ≤ 0 := by
  have hp : ¬ (1 - (1 / 2 : ℚ) * ((10 + 1 : Int) : ℚ)) / ((10 : Int) : ℚ) > 0 := by
    norm_num
  have hw : (Rectangles.ctorBody 10 (1 / 2)).1 = 32 / 100 := by
    rw [ctorBody_fallback 10 (1 / 2) hp]; norm_num
  refine ⟨hp, ?_, ?_, ?_, ?_⟩
  · rw [new_width, hw]
  · rw [new_width, hw]; norm_num
  · rw [new_length]; rfl
  · intro r hr
    obtain ⟨k, _, rfl⟩ := (mem_new_rectangles 10 (1 / 2) r).mp hr
    rw [barAt_width, barAt_margin, hw]
    norm_num

/-- C2 (amended). For every `count > 0` and requested margin whose primary formula
`(1 - margin*(count+1))/count` is not positive, the bar set built by
`Rectangles(count, margin)` has `count` bars and a positive width equal to
`4 * (0.8/count)`, the fallback width `0.8/count` scaled by 4, stored in the set and in
every bar; for `count = 10`, `margin = 0.5` the width is `0.32`. -/
theorem C2_fallback_width (count : Int) (margin : ℚ) (hc : 0 < count)
    (hp : ¬ (1 - margin * ((count + 1 : Int) : ℚ)) / (count : ℚ) > 0) :
    ((Rectangles.new count margin).width = 4 * ((8 / 10) / (count : ℚ)) ∧
      0 < (Rectangles.new count margin).width ∧
      ((Rectangles.new count margin).rectangles.length : Int) = count ∧
      ∀ r ∈ (Rectangles.new count margin).rectangles,
        r.width = 4 * ((8 / 10) / (count : ℚ)) ∧ 0 < r.width) ∧
    (Rectangles.new 10 (1 / 2)).width = 32 / 100 := by
  have hW := ctorBody_width_pos count margin hc
  refine ⟨⟨?_, ?_, ?_, ?_⟩, ?_⟩
  · rw [new_width, ctorBody_fallback count margin hp]
  · rw [new_width]; exact hW
  · rw [new_length]; omega
  · intro r hr
    obtain ⟨k, _, rfl⟩ := (mem_new_rectangles count margin r).mp hr
    rw [barAt_width]
    exact ⟨ctorBody_fallback count margin hp, hW⟩
  · rw [new_width, ctorBody_fallback 10 (1 / 2) (by norm_num)]; norm_num

/-- Witness for C2 (amended): `count = 10`, `margin = 0.5`. -/
theorem C2_fallback_width_witness :
    ((0 : Int) < 10 ∧ ¬ (1 - (1 / 2 : ℚ) * ((10 + 1 : Int) : ℚ)) / ((10 : Int) : ℚ) > 0) ∧
    ((Rectangles.new 10 (1 / 2)).width = 4 * ((8 / 10) / ((10 : Int) : ℚ)) ∧
      0 < (Rectangles.new 10 (1 / 2)).width ∧
      ((Rectangles.new 10 (1 / 2)).rectangles.length : Int) = 10 ∧
      ∀ r ∈ (Rectangles.new 10 (1 / 2)).rectangles,
        r.width = 4 * ((8 / 10) / ((10 : Int) : ℚ)) ∧ 0 < r.width) ∧
    (Rectangles.new 10 (1 / 2)).width = 32 / 100 :=
  ⟨⟨by decide, by norm_num⟩, C2_fallback_width 10 (1 / 2) (by decide) (by norm_num)⟩

/-- C4. For every bar and new height `h`, `changeHeight(h)` leaves the bar with exactly
6 vertices `(x0,-h/2), (x1,-h/2), (x1,h/2), (x0,-h/2), (x1,h/2), (x0,h/2)` (12 floats)
and bounding box `((x0,-h/2), (x1,h/2))`, where `x1 = x0 + width` and `x0 = -1 + diff`
when the bar's margin is `≤ 0` but `x0 = -1 + 2*diff` when it is `> 0`; the height is
`h` and the other members are unchanged. -/
theorem C4_changeHeight_geometry (r : Rectangle) (h x0 x1 : ℚ)
    (hx0 : x0 = if r.margin ≤ 0 then -1 + r.diff else -1 + 2 * r.diff)
    (hx1 : x1 = x0 + r.width) :
    (r.changeHeight h).vertices.length = 12 ∧
    Rectangle.points (r.changeHeight h).vertices =
      [(x0, -h / 2), (x1, -h / 2), (x1, h / 2), (x0, -h / 2), (x1, h / 2), (x0, h / 2)] ∧
    (r.changeHeight h).rectangle = [(x0, -h / 2), (x1, h / 2)] ∧
    (r.changeHeight h).height = h ∧
    (r.changeHeight h).width = r.width ∧ (r.changeHeight h).diff = r.diff ∧
    (r.changeHeight h).margin = r.margin ∧ (r.changeHeight h).index = r.index := by
  have e1 : (-1 : ℚ) * (h / 2) = -h / 2 := by ring
  have e2 : -1 + (if r.margin ≤ 0 then r.diff else r.diff * 2) = x0 := by
    rw [hx0]; split_ifs <;> ring
  subst hx1
  refine ⟨rfl, ?_, ?_, rfl, rfl, rfl, rfl, rfl⟩
  · simp only [Rectangle.changeHeight, Rectangle.updateVertices, Rectangle.points, e1, e2]
  · simp only [Rectangle.changeHeight, Rectangle.updateVertices, e1, e2]

/-- Witness for C4: a bar of width `3/4`, offset `17/20` and margin `1/20` (so the
doubled shift applies) set to height `1`. -/
theorem C4_changeHeight_geometry_witness :
    ((7 / 10 : ℚ) =
        (if (Rectangle.new (3 / 4) 0 (17 / 20) (1 / 20) 1).margin ≤ 0
          then -1 + (Rectangle.new (3 / 4) 0 (17 / 20) (1 / 20) 1).diff
          else -1 + 2 * (Rectangle.new (3 / 4) 0 (17 / 20) (1 / 20) 1).diff) ∧
      (29 / 20 : ℚ) = 7 / 10 + (Rectangle.new (3 / 4) 0 (17 / 20) (1 / 20) 1).width) ∧
    Rectangle.points ((Rectangle.new (3 / 4) 0 (17 / 20) (1 / 20) 1).changeHeight 1).vertices =
      [(7 / 10, -1 / 2), (29 / 20, -1 / 2), (29 / 20, 1 / 2),
       (7 / 10, -1 / 2), (29 / 20, 1 / 2), (7 / 10, 1 / 2)] ∧
    ((Rectangle.new (3 / 4) 0 (17 / 20) (1 / 20) 1).changeHeight 1).rectangle =
      [(7 / 10, -1 / 2), (29 / 20, 1 / 2)] := by
  have e0 : (7 / 10 : ℚ) =
      (if (Rectangle.new (3 / 4) 0 (17 / 20) (1 / 20) 1).margin ≤ 0
        then -1 + (Rectangle.new (3 / 4) 0 (17 / 20) (1 / 20) 1).diff
        else -1 + 2 * (Rectangle.new (3 / 4) 0 (17 / 20) (1 / 20) 1).diff) := by
    simp [Rectangle.new, Rectangle.updateVertices]; norm_num
  have e1 : (29 / 20 : ℚ) = 7 / 10 + (Rectangle.new (3 / 4) 0 (17 / 20) (1 / 20) 1).width := by
    simp [Rectangle.new, Rectangle.updateVertices]; norm_num
  have key := C4_changeHeight_geometry (Rectangle.new (3 / 4) 0 (17 / 20) (1 / 20) 1) 1
    (7 / 10) (29 / 20) e0 e1
  exact ⟨⟨e0, e1⟩, key.2.1, key.2.2.1⟩

/-- C10. `changeHeight` is idempotent: calling `changeHeight(h)` twice leaves the same
bar state (height, vertex list, bounding box and every other member) as calling it
once. -/
theorem C10_changeHeight_idempotent (r : Rectangle) (h : ℚ) :
    (r.changeHeight h).changeHeight h = r.changeHeight h := by
  simp [Rectangle.changeHeight, Rectangle.updateVertices]

/-- C5 (as stated) fails at `count = 1`, `margin = -0.1`: the primary formula is
positive, the one bar has width `4.8` and margin `-0.1`, and
`count*width + (count+1)*margin = 4.6 > 4`. -/
theorem C5_counterexample :
    (0 : Int) < 1 ∧
    (Rectangles.new 1 (-1 / 10)).rectangles.map (fun r => (r.width, r.margin)) =
      [(48 / 10, -1 / 10)] ∧
    ∃ r ∈ (Rectangles.new 1 (-1 / 10)).rectangles,
      ¬ (((1 : Int) : ℚ) * r.width + (((1 : Int) : ℚ) + 1) * r.margin ≤ 4) := by
  have hw : (Rectangles.ctorBody 1 (-1 / 10)).1 = 48 / 10 := by
    rw [ctorBody_primary 1 (-1 / 10) (by norm_num)]; norm_num
  refine ⟨by decide, ?_, barAt (48 / 10) 0 (-1 / 10) 0, ?_, ?_⟩
  · rw [new_rectangles, hw]
    simp [List.range_succ, barAt_width, barAt_margin]
  · rw [mem_new_rectangles, hw]
    exact ⟨0, by decide, rfl⟩
  · rw [barAt_width, barAt_margin]; norm_num

/-- C5 (amended). Reading the arithmetic as exact (real) arithmetic, the guard
`(1 - margin*(count+1))/count > 0` of the constructor included: for every `count > 0`
and every requested margin, every bar built by `Rectangles(count, margin)` stores the
width and the margin of the bar set and that width is `> 0`; and when the requested
margin is `≥ 0` and the primary formula `(1 - margin*(count+1))/count` is positive,
`count*width + (count+1)*margin ≤ 4` for the width and margin the bars are laid out
with. Under `float` rounding the guard can decide differently from the exact one (the
product `margin*(count+1)` is rounded first), which this statement does not cover. -/
theorem C5_layout_invariant (count : Int) (margin : ℚ) (hc : 0 < count) :
    (∀ r ∈ (Rectangles.new count margin).rectangles,
      r.width = (Rectangles.new count margin).width ∧
      r.margin = (Rectangles.new count margin).margin ∧ 0 < r.width) ∧
    (0 ≤ margin → (1 - margin * ((count + 1 : Int) : ℚ)) / (count : ℚ) > 0 →
      ∀ r ∈ (Rectangles.new count margin).rectangles,
        (count : ℚ) * r.width + ((count : ℚ) + 1) * r.margin ≤ 4) := by
  have hc' : (0 : ℚ) < (count : ℚ) := by exact_mod_cast hc
  refine ⟨?_, ?_⟩
  · intro r hr
    obtain ⟨k, _, rfl⟩ := (mem_new_rectangles count margin r).mp hr
    exact ⟨rfl, rfl, ctorBody_width_pos count margin hc⟩
  · intro hm hp r hr
    obtain ⟨k, _, rfl⟩ := (mem_new_rectangles count margin r).mp hr
    rw [barAt_width, barAt_margin, ctorBody_primary count margin hp]
    have e : (count : ℚ) * (4 * (1 - margin * ((count : ℚ) + 1)) / (count : ℚ)) =
        4 * (1 - margin * ((count : ℚ) + 1)) := by
      field_simp
    rw [e]
    nlinarith [mul_nonneg hm hc'.le]

/-- Witness for C5 (amended): `count = 4`, `margin = 0.05`. -/
theorem C5_layout_invariant_witness :
    ((0 : Int) < 4 ∧ (0 : ℚ) ≤ 5 / 100 ∧
      (1 - (5 / 100 : ℚ) * ((4 + 1 : Int) : ℚ)) / ((4 : Int) : ℚ) > 0) ∧
    (∀ r ∈ (Rectangles.new 4 (5 / 100)).rectangles,
      r.width = (Rectangles.new 4 (5 / 100)).width ∧
      r.margin = (Rectangles.new 4 (5 / 100)).margin ∧ 0 < r.width) ∧
    (∀ r ∈ (Rectangles.new 4 (5 / 100)).rectangles,
        ((4 : Int) : ℚ) * r.width + (((4 : Int) : ℚ) + 1) * r.margin ≤ 4) :=
  ⟨⟨by decide, by norm_num, by norm_num⟩,
    (C5_layout_invariant 4 (5 / 100) (by decide)).1,
    (C5_layout_invariant 4 (5 / 100) (by decide)).2 (by norm_num) (by norm_num)⟩

/-- C6 (as stated) fails at `count = 4`, `margin = 0.05` (positive primary width): the
quad of bar 0 spans `[-0.9, -0.15]` and that of bar 1 spans `[0.7, 1.45]`, so the
distance from `x = -1` to bar 0 is `0.1` and the gap between bars 0 and 1 is `0.85`,
neither of which is the margin `0.05`. -/
theorem C6_counterexample :
    ((2 : Int) ≤ 4 ∧ (1 - (5 / 100 : ℚ) * ((4 + 1 : Int) : ℚ)) / ((4 : Int) : ℚ) > 0) ∧
    ∃ a b : Rectangle, ∃ la ra lb rb : ℚ,
      (Rectangles.new 4 (5 / 100)).rectangles[0]? = some a ∧
      (Rectangles.new 4 (5 / 100)).rectangles[1]? = some b ∧
      a.span = some (la, ra) ∧ b.span = some (lb, rb) ∧
      la - (-1) = 10 / 100 ∧ lb - ra = 85 / 100 ∧
      la - (-1) ≠ 5 / 100 ∧ lb - ra ≠ 5 / 100 := by
  have hw : (Rectangles.ctorBody 4 (5 / 100)).1 = 3 / 4 := by
    rw [ctorBody_primary 4 (5 / 100) (by norm_num)]; norm_num
  refine ⟨⟨by decide, by norm_num⟩, _, _, _, _, _, _,
    new_getElem? 4 (5 / 100) 0 (by decide), new_getElem? 4 (5 / 100) 1 (by decide),
    barAt_span _ _ _ _, barAt_span _ _ _ _, ?_, ?_, ?_, ?_⟩ <;>
  · rw [hw]; norm_num

/-- C6 (amended). For every `count ≥ 2` and requested margin with a positive primary
width: when the margin is `≤ 0`, the distance from the right edge of bar `i`'s quad to
the left edge of bar `i+1`'s quad equals the margin for every `i < count-1`, and so does
the distance from `x = -1` to the left edge of bar 0's quad; when the margin is `> 0`
the offsets are doubled in the quads, so the gap between adjacent quads is
`width + 2*margin` and the distance from `x = -1` to bar 0's quad is `2*margin`. -/
theorem C6_gap_between_quads (count : Int) (margin : ℚ) (hc : 2 ≤ count)
    (hp : (1 - margin * ((count + 1 : Int) : ℚ)) / (count : ℚ) > 0) :
    (∃ a : Rectangle, ∃ la ra : ℚ,
      (Rectangles.new count margin).rectangles[0]? = some a ∧ a.span = some (la, ra) ∧
      la - (-1) = if margin ≤ 0 then margin else 2 * margin) ∧
    (∀ i : Nat, (i : Int) < count - 1 →
      ∃ a b : Rectangle, ∃ la ra lb rb : ℚ,
        (Rectangles.new count margin).rectangles[i]? = some a ∧
        (Rectangles.new count margin).rectangles[i + 1]? = some b ∧
        a.span = some (la, ra) ∧ b.span = some (lb, rb) ∧
        a.width = 4 * (1 - margin * ((count : ℚ) + 1)) / (count : ℚ) ∧
        lb - ra = if margin ≤ 0 then margin else a.width + 2 * margin) := by
  refine ⟨⟨_, _, _, new_getElem? count margin 0 (by omega), barAt_span _ _ _ _, ?_⟩, ?_⟩
  · split_ifs <;> push_cast <;> ring
  · intro i hi
    refine ⟨_, _, _, _, _, _, new_getElem? count margin i (by omega),
      new_getElem? count margin (i + 1) (by omega), barAt_span _ _ _ _, barAt_span _ _ _ _,
      ?_, ?_⟩
    · rw [barAt_width, ctorBody_primary count margin hp]
    · rw [barAt_width]
      split_ifs <;> push_cast <;> ring

/-- Witness for C6 (amended): `count = 4`, `margin = 0.05`. -/
theorem C6_gap_between_quads_witness :
    ((2 : Int) ≤ 4 ∧ (1 - (5 / 100 : ℚ) * ((4 + 1 : Int) : ℚ)) / ((4 : Int) : ℚ) > 0) ∧
    (∃ a : Rectangle, ∃ la ra : ℚ,
      (Rectangles.new 4 (5 / 100)).rectangles[0]? = some a ∧ a.span = some (la, ra) ∧
      la - (-1) = if (5 / 100 : ℚ) ≤ 0 then 5 / 100 else 2 * (5 / 100)) ∧
    (∀ i : Nat, (i : Int) < 4 - 1 →
      ∃ a b : Rectangle, ∃ la ra lb rb : ℚ,
        (Rectangles.new 4 (5 / 100)).rectangles[i]? = some a ∧
        (Rectangles.new 4 (5 / 100)).rectangles[i + 1]? = some b ∧
        a.span = some (la, ra) ∧ b.span = some (lb, rb) ∧
        a.width = 4 * (1 - (5 / 100 : ℚ) * (((4 : Int) : ℚ) + 1)) / ((4 : Int) : ℚ) ∧
        lb - ra = if (5 / 100 : ℚ) ≤ 0 then 5 / 100 else a.width + 2 * (5 / 100)) :=
  ⟨⟨by decide, by norm_num⟩, C6_gap_between_quads 4 (5 / 100) (by decide) (by norm_num)⟩

/-- C7 at the failing input `count = 4`, `margin = 0.05`, empty frame: the four bars
exist, the lookup `samples[0]` of the first bar falls outside the empty frame, and the
update pass does not produce bars of height 0: it has no result. -/
theorem C7_empty_frame_lookup_fails :
    (Rectangles.new 4 (5 / 100)).getRectangles.length = 4 ∧
    (∃ r : Rectangle, (Rectangles.new 4 (5 / 100)).getRectangles[0]? = some r ∧
      r.index = 0 ∧ sampleAt [] r.index = none) ∧
    updateHeights (Rectangles.new 4 (5 / 100)).getRectangles [] = none := by
  refine ⟨by rw [Rectangles.getRectangles, new_length]; rfl,
    ⟨_, new_getElem? 4 (5 / 100) 0 (by decide), rfl, by simp [sampleAt]⟩,
    updateHeights_empty_frame 4 (5 / 100) (by decide)⟩

/-- C8. For every `count > 0`, requested margin and sample sequence of length
`≥ count`, every bar built by `Rectangles(count, margin)` has `0 ≤ index < count` and
its lookup `samples[index]` succeeds; the update pass returns the bars with bar `i` set
by `changeHeight(samples[i] * step)`, so with height `samples[i] * step`. -/
theorem C8_lookups_in_bounds (count : Int) (margin : ℚ) (samples : List Int)
    (hc : 0 < count) (hlen : count ≤ (samples.length : Int)) :
    (∀ r ∈ (Rectangles.new count margin).getRectangles,
      0 ≤ r.index ∧ r.index < count ∧ ∃ s, sampleAt samples r.index = some s) ∧
    ∃ bars : List Rectangle,
      updateHeights (Rectangles.new count margin).getRectangles samples = some bars ∧
      (bars.length : Int) = count ∧
      ∀ i : Nat, (i : Int) < count →
        ∃ s : Int, ∃ b b1 : Rectangle,
          samples[i]? = some s ∧
          (Rectangles.new count margin).getRectangles[i]? = some b ∧ b.index = (i : Int) ∧
          bars[i]? = some b1 ∧ b1 = b.changeHeight ((s : ℚ) * step) ∧
          b1.height = (s : ℚ) * step := by
  simp only [Rectangles.getRectangles]
  have hlook : ∀ r ∈ (Rectangles.new count margin).rectangles,
      0 ≤ r.index ∧ r.index < count ∧ ∃ s, sampleAt samples r.index = some s := by
    intro r hr
    obtain ⟨k, hk, rfl⟩ := (mem_new_rectangles count margin r).mp hr
    rw [barAt_index]
    have hk' : k < samples.length := by omega
    exact ⟨by omega, hk, samples[k], by
      rw [sampleAt_natCast, List.getElem?_eq_getElem hk']⟩
  refine ⟨hlook, _, updateHeights_of_lookups samples _ (fun r hr => (hlook r hr).2.2),
    ?_, ?_⟩
  · rw [List.length_map, new_length]; omega
  · intro i hi
    have hi' : i < samples.length := by omega
    have hs : sampleAt samples
        (barAt (Rectangles.ctorBody count margin).1 0 margin i).index = some samples[i] := by
      rw [barAt_index, sampleAt_natCast, List.getElem?_eq_getElem hi']
    refine ⟨samples[i], _, _, List.getElem?_eq_getElem hi', new_getElem? count margin i hi,
      barAt_index _ _ _ _, ?_, rfl, rfl⟩
    rw [List.getElem?_map, new_getElem? count margin i hi, Option.map_some', hs]
    rfl

/-- Witness for C8: four bars with margin `0.05` and a frame of five samples. -/
theorem C8_lookups_in_bounds_witness :
    ((0 : Int) < 4 ∧ (4 : Int) ≤ (([100, -200, 300, -400, 500] : List Int).length : Int)) ∧
    ∃ bars : List Rectangle,
      updateHeights (Rectangles.new 4 (5 / 100)).getRectangles [100, -200, 300, -400, 500] =
        some bars ∧
      (bars.length : Int) = 4 :=
  ⟨⟨by decide, by decide⟩,
    (C8_lookups_in_bounds 4 (5 / 100) [100, -200, 300, -400, 500]
      (by decide) (by decide)).2.imp (fun _ h => ⟨h.1, h.2.1⟩)⟩

/-- C9. For every signed 16-bit sample `s` that the update pass looks up for a bar, the
height passed to `changeHeight` (and stored in the bar) is exactly `s * (2/32757)`, with
no clamping; sample `32757` maps to height `2` and sample `-32757` to height `-2`. -/
theorem C9_sample_to_height (r : Rectangle) (samples : List Int) (s : Int)
    (_hs : -32768 ≤ s ∧ s ≤ 32767) (hlook : sampleAt samples r.index = some s) :
    (sampleHeight s = (s : ℚ) * (2 / 32757) ∧
      updateHeights [r] samples = some [r.changeHeight ((s : ℚ) * (2 / 32757))] ∧
      (r.changeHeight ((s : ℚ) * (2 / 32757))).height = (s : ℚ) * (2 / 32757)) ∧
    sampleHeight 32757 = 2 ∧ sampleHeight (-32757) = -2 := by
  refine ⟨⟨rfl, ?_, rfl⟩, ?_, ?_⟩
  · simp [updateHeights, hlook, sampleHeight, step]
  · norm_num [sampleHeight, step]
  · norm_num [sampleHeight, step]

/-- Witness for C9: the first bar of a one-sample frame holding `32757`. -/
theorem C9_sample_to_height_witness :
    ((-32768 : Int) ≤ 32757 ∧ (32757 : Int) ≤ 32767) ∧
    sampleAt [32757] (Rectangle.new (3 / 4) 0 (1 / 20) (1 / 20) 0).index = some 32757 ∧
    updateHeights [Rectangle.new (3 / 4) 0 (1 / 20) (1 / 20) 0] [32757] =
      some [(Rectangle.new (3 / 4) 0 (1 / 20) (1 / 20) 0).changeHeight
        (((32757 : Int) : ℚ) * (2 / 32757))] ∧
    sampleHeight 32757 = 2 :=
  ⟨⟨by decide, by decide⟩, by simp [sampleAt, Rectangle.new, Rectangle.updateVertices],
    (C9_sample_to_height (Rectangle.new (3 / 4) 0 (1 / 20) (1 / 20) 0) [32757] 32757
      ⟨by decide, by decide⟩
      (by simp [sampleAt, Rectangle.new, Rectangle.updateVertices])).1.2.1,
    (C9_sample_to_height (Rectangle.new (3 / 4) 0 (1 / 20) (1 / 20) 0) [32757] 32757
      ⟨by decide, by decide⟩
      (by simp [sampleAt, Rectangle.new, Rectangle.updateVertices])).2.1⟩

end MiCava
